import Mathlib

/-
Verification of the Blend v2 emission distributor (pool/src/emissions/distributor.rs)
and of the backstop share/token conversion mocks
(backstop/src/certora_specs/mocks/conversions.rs).

The Rust code is shallowly embedded: u64 values become Nat, i128/i64 values become
Int with explicit range checks where the machine arithmetic is checked (Rust panics
on overflow/underflow with overflow checks enabled, and the Soroban host traps on
division by zero and on narrowing a 256-bit intermediate that does not fit i128).
Fallible computations return `Except PoolError`; a returned `.error` models a panic,
which aborts the whole contract invocation and discards every storage write made
during it (spec section 5: all intermediate writes are transactional).  Contract
storage is an explicit `Store` value threaded through the functions.
-/

set_option maxRecDepth 8000

namespace Blend

/-- Error conditions of the embedded code.  `NegativeAmount` is the panic raised by
`require_nonnegative` (PoolError #8, the spec's NegativeIndexDelta condition);
`BadRequest` is PoolError #1200 (the spec's InvalidStreamId); `ArithUnderflow` and
`ArithOverflow` model checked-arithmetic panics; `DivisionByZero` models the host
trap on a zero denominator. -/
inductive PoolError where
  | BadRequest
  | NegativeAmount
  | ArithUnderflow
  | ArithOverflow
  | DivisionByZero
deriving Repr, DecidableEq

def I128_MIN : Int := -(2 ^ 127)

def I128_MAX : Int := 2 ^ 127 - 1

def I64_MIN : Int := -(2 ^ 63)

def I64_MAX : Int := 2 ^ 63 - 1

def fitsI128 (x : Int) : Bool := decide (I128_MIN ≤ x) && decide (x ≤ I128_MAX)

def fitsI64 (x : Int) : Bool := decide (I64_MIN ≤ x) && decide (x ≤ I64_MAX)

/-- Checked i128 addition: Rust `+` with overflow checks panics when the result
does not fit in i128. -/
def checkedAddI128 (x y : Int) : Except PoolError Int :=
  if fitsI128 (x + y) then .ok (x + y) else .error .ArithOverflow

/-- Checked i128 subtraction. -/
def checkedSubI128 (x y : Int) : Except PoolError Int :=
  if fitsI128 (x - y) then .ok (x - y) else .error .ArithOverflow

/-- Checked i128 multiplication. -/
def checkedMulI128 (x y : Int) : Except PoolError Int :=
  if fitsI128 (x * y) then .ok (x * y) else .error .ArithOverflow

/-- Modelled from the spec: `mul_div_floor` of the fixed-point arithmetic primitives
(the soroban-fixed-point-math dependency, whose source is not under src/), spec
section 4.1: computes floor(x * y / z) over an intermediate wide enough that the
product cannot overflow, fails with a DivisionByZero condition when z = 0 and with
an Overflow condition when the narrowed result does not fit the 128-bit target
width.  Rounding is floor (toward negative infinity), which `Int.fdiv` implements. -/
def soroban_mul_div_floor (x y z : Int) : Except PoolError Int :=
  if z = 0 then .error .DivisionByZero
  else if fitsI128 ((x * y).fdiv z) then .ok ((x * y).fdiv z) else .error .ArithOverflow

/-- SorobanFixedPoint::fixed_mul_floor for i128: floor(x * y / denom). -/
def soroban_fixed_mul_floor (x y denom : Int) : Except PoolError Int :=
  soroban_mul_div_floor x y denom

/-- SorobanFixedPoint::fixed_div_floor for i128: floor(x * denom / y). -/
def soroban_fixed_div_floor (x y denom : Int) : Except PoolError Int :=
  soroban_mul_div_floor x denom y

/-- Modelled from the spec: FixedPoint::fixed_mul_floor for i64 (the
soroban-fixed-point-math dependency, not under src/), spec section 4.1: the i64
operands are widened to i128, multiplied (the product always fits the double
width for genuine i64 inputs, kept checked for faithfulness), floor-divided, and
the result is narrowed back to i64; `none` models the `Option::None` returned on a
zero denominator or when the result does not fit i64. -/
def fixed_mul_floor_i64 (x y denom : Int) : Option Int :=
  if fitsI128 (x * y) then
    if denom = 0 then none
    else if fitsI64 ((x * y).fdiv denom) then some ((x * y).fdiv denom) else none
  else none

/-- Checked `10i128.pow(decimals)`: Rust `pow` panics when the power overflows. -/
def pow10I128 (decimals : Nat) : Except PoolError Int :=
  if fitsI128 ((10 : Int) ^ decimals) then .ok ((10 : Int) ^ decimals)
  else .error .ArithOverflow

/-- The 7-decimal fixed-point scalar from pool/src/constants.rs. -/
def SCALAR_7 : Int := 10000000

/-- Modelled from the spec: the per-reward-stream record (spec section 3,
`ReserveEmissionData` of pool/src/storage.rs, which is not under src/; fields and
types are fixed by their uses in distributor.rs: `expiration`, `eps`, `last_time`
are u64, `index` is i128). -/
structure ReserveEmissionData where
  expiration : Nat
  eps : Nat
  index : Int
  last_time : Nat
deriving Repr, DecidableEq

/-- Modelled from the spec: the per-user snapshot record (spec section 3,
`UserEmissionData` of pool/src/storage.rs, not under src/): both fields i128. -/
structure UserEmissionData where
  index : Int
  accrued : Int
deriving Repr, DecidableEq

/-- The slice of a reserve's configuration read by execute_claim. -/
structure ResConfig where
  decimals : Nat
deriving Repr, DecidableEq

/-- The slice of a reserve's data read by execute_claim. -/
structure ResData where
  b_supply : Int
  d_supply : Int
deriving Repr, DecidableEq

/-- Modelled from the spec: the storage collaborator (spec section 6), restricted
to the keys the distributor reads and writes, for a fixed claiming user.
Addresses are modelled as Nat.  `liabilities` and `totalSupply` are the claiming
user's per-reserve-index position balances (`User::get_liabilities` and
`User::get_total_supply`, whose sources are not under src/). -/
structure Store where
  resList : List Nat
  resConfig : Nat → ResConfig
  resData : Nat → ResData
  resEmis : Nat → Option ReserveEmissionData
  userEmis : Nat → Option UserEmissionData
  liabilities : Nat → Int
  totalSupply : Nat → Int

def setResEmis (st : Store) (id : Nat) (d : ReserveEmissionData) : Store :=
  { st with resEmis := fun k => if k = id then some d else st.resEmis k }

def setUserEmis (st : Store) (id : Nat) (u : UserEmissionData) : Store :=
  { st with userEmis := fun k => if k = id then some u else st.userEmis k }

/-- Embedding of `update_emission_data` (distributor.rs lines 152-185).  `now` is
`e.ledger().timestamp()`. -/
def update_emission_data (now : Nat) (res_token_id : Nat) (supply supply_scalar : Int)
    (st : Store) : Except PoolError (Option ReserveEmissionData × Store) :=
  match st.resEmis res_token_id with
  | none => .ok (none, st)
  | some d =>
    if d.expiration ≤ d.last_time ∨ now = d.last_time ∨ d.eps = 0 ∨ supply = 0 then
      .ok (some d, st)
    else
      let ledger_timestamp : Nat := if d.expiration < now then d.expiration else now
      if ledger_timestamp < d.last_time then .error .ArithUnderflow
      else do
        let prod ← checkedMulI128 ((ledger_timestamp - d.last_time : Nat) : Int) (d.eps : Int)
        let additional_idx ← soroban_fixed_div_floor prod supply supply_scalar
        let newIndex ← checkedAddI128 d.index additional_idx
        let d' : ReserveEmissionData :=
          { expiration := d.expiration, eps := d.eps, index := newIndex,
            last_time := ledger_timestamp }
        .ok (some d', setResEmis st res_token_id d')

/-- Embedding of `set_user_emissions` (distributor.rs lines 223-243): writes the
snapshot and returns the claimed amount (0 when not claiming). -/
def set_user_emissions (st : Store) (res_token_id : Nat) (index accrued : Int)
    (claim : Bool) : Int × Store :=
  if claim then (accrued, setUserEmis st res_token_id { index := index, accrued := 0 })
  else (0, setUserEmis st res_token_id { index := index, accrued := accrued })

/-- Embedding of `update_user_emissions` (distributor.rs lines 187-221). -/
def update_user_emissions (d : ReserveEmissionData) (res_token_id : Nat)
    (supply_scalar balance : Int) (claim : Bool) (st : Store) :
    Except PoolError (Int × Store) :=
  match st.userEmis res_token_id with
  | some u =>
    if u.index ≠ d.index ∨ claim = true then
      if balance ≠ 0 then do
        let delta_index ← checkedSubI128 d.index u.index
        if delta_index < 0 then .error .NegativeAmount
        else do
          let denom ← checkedMulI128 supply_scalar SCALAR_7
          let to_accrue ← soroban_fixed_mul_floor balance delta_index denom
          let accrual ← checkedAddI128 u.accrued to_accrue
          .ok (set_user_emissions st res_token_id d.index accrual claim)
      else .ok (set_user_emissions st res_token_id d.index u.accrued claim)
    else .ok (0, st)
  | none =>
    if balance = 0 then .ok (set_user_emissions st res_token_id d.index 0 claim)
    else do
      let denom ← checkedMulI128 supply_scalar SCALAR_7
      let to_accrue ← soroban_fixed_mul_floor balance d.index denom
      .ok (set_user_emissions st res_token_id d.index to_accrue claim)

/-- Embedding of `update_emissions` (distributor.rs lines 83-102). -/
def update_emissions (now res_token_id : Nat) (supply supply_scalar balance : Int)
    (st : Store) : Except PoolError Store := do
  let (od, st1) ← update_emission_data now res_token_id supply supply_scalar st
  match od with
  | none => .ok st1
  | some d => do
    let (_, st2) ← update_user_emissions d res_token_id supply_scalar balance false st1
    .ok st2

/-- Embedding of `claim_emissions` (distributor.rs lines 117-138). -/
def claim_emissions (now res_token_id : Nat) (supply supply_scalar balance : Int)
    (st : Store) : Except PoolError (Int × Store) := do
  let (od, st1) ← update_emission_data now res_token_id supply supply_scalar st
  match od with
  | none => .ok (0, st1)
  | some d => update_user_emissions d res_token_id supply_scalar balance true st1

/-- The side-dependent user balance read by the execute_claim loop: liabilities for
a dToken id (even), total supply for a bToken id (odd). -/
def balanceOf (st : Store) (reserve_token_id : Nat) : Int :=
  if reserve_token_id % 2 = 0 then st.liabilities (reserve_token_id / 2)
  else st.totalSupply (reserve_token_id / 2)

/-- The side-dependent reserve supply read by the execute_claim loop. -/
def supplyOf (st : Store) (res_address reserve_token_id : Nat) : Int :=
  if reserve_token_id % 2 = 0 then (st.resData res_address).d_supply
  else (st.resData res_address).b_supply

/-- One body of the `execute_claim` loop (distributor.rs lines 19-50): resolve the
reserve from the token id (BadRequest when the index is not in the reserve list),
pick the user balance and supply by token side, and claim. -/
def claim_step (now : Nat) (reserve_token_id : Nat) (st : Store) :
    Except PoolError (Int × Store) :=
  match st.resList[reserve_token_id / 2]? with
  | none => .error .BadRequest
  | some res_address => do
    let scalar ← pow10I128 (st.resConfig res_address).decimals
    claim_emissions now reserve_token_id (supplyOf st res_address reserve_token_id) scalar
      (balanceOf st reserve_token_id) st

/-- The `execute_claim` accumulation loop, threading `to_claim` (checked i128
addition) and the store. -/
def claim_loop (now : Nat) (ids : List Nat) (acc : Int) (st : Store) :
    Except PoolError (Int × Store) :=
  match ids with
  | [] => .ok (acc, st)
  | id :: rest => do
    let (v, st') ← claim_step now id st
    let acc' ← checkedAddI128 acc v
    claim_loop now rest acc' st'

/-- Embedding of `execute_claim` (distributor.rs lines 15-63).  The final token
transfer is an external collaborator acting on the aggregate only; the returned
pair is the claimed total and the committed storage.  An `.error` result models a
panic: the transaction aborts, no transfer happens, and no storage write is
committed. -/
def execute_claim (now : Nat) (reserve_token_ids : List Nat) (st : Store) :
    Except PoolError (Int × Store) :=
  claim_loop now reserve_token_ids 0 st

/-- Embedding of `certora_convert_to_tokens` (conversions.rs lines 4-13):
shares * pool_tokens / pool_shares, floor; `none` models the `unwrap` panic. -/
def certora_convert_to_tokens (pool_shares pool_tokens shares : Int) : Option Int :=
  if pool_shares = 0 then some shares
  else fixed_mul_floor_i64 shares pool_tokens pool_shares

/-- Embedding of `certora_convert_to_shares` (conversions.rs lines 15-24):
tokens * pool_shares / pool_tokens, floor. -/
def certora_convert_to_shares (pool_shares pool_tokens tokens : Int) : Option Int :=
  if pool_shares = 0 then some tokens
  else fixed_mul_floor_i64 tokens pool_shares pool_tokens

/-- Keep the first occurrence of every id, drop later duplicates. -/
def dedupFirst : List Nat → List Nat
  | [] => []
  | x :: xs => x :: dedupFirst (xs.filter (fun k => k != x))
termination_by l => l.length
decreasing_by
  simp only [List.length_cons]
  exact Nat.lt_succ_of_le (List.length_filter_le _ _)

/-- A sequence of `update_emission_data` calls against one stream; a call that
panics commits nothing (transactional discard) and the sequence continues. -/
def applyCalls (id : Nat) : List (Nat × Int × Int) → Store → Store
  | [], st => st
  | c :: rest, st =>
    match update_emission_data c.1 id c.2.1 c.2.2 st with
    | .ok (_, st') => applyCalls id rest st'
    | .error _ => applyCalls id rest st



/- ### Generic helper lemmas about the Except monad and the checked primitives -/

/-- A minimal store: one reserve at address 100, no emission records. -/
def baseStore : Store :=
  { resList := [100]
    resConfig := fun _ => ⟨7⟩
    resData := fun _ => ⟨50, 50⟩
    resEmis := fun _ => none
    userEmis := fun _ => none
    liabilities := fun _ => 0
    totalSupply := fun _ => 0 }

def w6Store : Store :=
  { baseStore with resEmis := fun k => if k = 0 then some ⟨10, 5, 7, 3⟩ else none }

def w1Store : Store :=
  { baseStore with resEmis := fun k =>
      if k = 2 then some ⟨1600000000, 1000000000000, 23456780000000, 1500000000⟩ else none }

def w2Store : Store :=
  { baseStore with userEmis := fun k => if k = 0 then some ⟨5, 7⟩ else none }

def cex5Store : Store :=
  { baseStore with userEmis := fun k => if k = 0 then some ⟨2, 0⟩ else none }

def w5aStore : Store :=
  { baseStore with resEmis := fun k => if k = 0 then some ⟨10, 1, 0, 5⟩ else none }

def cex3Store : Store :=
  { baseStore with resEmis := fun k => if k = 0 then some ⟨10, 1, 0, 0⟩ else none }

def w3Store : Store :=
  { baseStore with resEmis := fun k => if k = 0 then some ⟨10, 1, 0, 0⟩ else none }

/-- The stream at this key is in a state where update_emission_data is a no-op for
the given timestamp and supply. -/
def EmisNoop (now id : Nat) (supply : Int) (st : Store) : Prop :=
  ∀ d, st.resEmis id = some d →
    d.expiration ≤ d.last_time ∨ now = d.last_time ∨ d.eps = 0 ∨ supply = 0

/-- The claim-loop fixed point for one reserve token id: the id resolves, its
scalar computes, and either no stream record exists or the stream is in its no-op
state with the user snapshot already reconciled and zeroed. -/
def StepFixed (now x : Nat) (st : Store) : Prop :=
  ∃ addr, st.resList[x / 2]? = some addr ∧
    ∃ scalar, pow10I128 (st.resConfig addr).decimals = .ok scalar ∧
      (st.resEmis x = none ∨
        ∃ d, st.resEmis x = some d ∧
          (d.expiration ≤ d.last_time ∨ now = d.last_time ∨ d.eps = 0 ∨
            supplyOf st addr x = 0) ∧
          st.userEmis x = some ⟨d.index, 0⟩ ∧
          (balanceOf st x = 0 ∨
            (fitsI128 (scalar * SCALAR_7) = true ∧ scalar * SCALAR_7 ≠ 0)))

@[simp]
theorem ok_bind {ε α β : Type} (a : α) (f : α → Except ε β) :
    (Except.ok a : Except ε α) >>= f = f a := rfl

@[simp]
theorem error_bind {ε α β : Type} (e : ε) (f : α → Except ε β) :
    (Except.error e : Except ε α) >>= f = Except.error e := rfl

theorem except_bind_ok {ε α β : Type} {x : Except ε α} {f : α → Except ε β} {b : β} :
    x >>= f = .ok b ↔ ∃ a, x = .ok a ∧ f a = .ok b := by
  cases x <;> simp

theorem except_bind_error {ε α β : Type} {x : Except ε α} {f : α → Except ε β} {e : ε} :
    x >>= f = .error e ↔ x = .error e ∨ ∃ a, x = .ok a ∧ f a = .error e := by
  cases x <;> simp

theorem checkedAddI128_ok {x y v : Int} (h : checkedAddI128 x y = .ok v) : v = x + y := by
  unfold checkedAddI128 at h
  split at h
  · injection h with h
    exact h.symm
  · simp at h

theorem checkedSubI128_ok {x y v : Int} (h : checkedSubI128 x y = .ok v) : v = x - y := by
  unfold checkedSubI128 at h
  split at h
  · injection h with h
    exact h.symm
  · simp at h

theorem checkedMulI128_ok {x y v : Int} (h : checkedMulI128 x y = .ok v) : v = x * y := by
  unfold checkedMulI128 at h
  split at h
  · injection h with h
    exact h.symm
  · simp at h

theorem soroban_mul_div_floor_ok {x y z v : Int} (h : soroban_mul_div_floor x y z = .ok v) :
    v = (x * y).fdiv z ∧ z ≠ 0 := by
  unfold soroban_mul_div_floor at h
  split at h
  · simp at h
  · split at h
    · injection h with h
      exact ⟨h.symm, by assumption⟩
    · simp at h

theorem pow10I128_ok {n : Nat} {v : Int} (h : pow10I128 n = .ok v) : v = (10 : Int) ^ n := by
  unfold pow10I128 at h
  split at h
  · injection h with h
    exact h.symm
  · simp at h



/- ### Concrete stores used by witnesses and counterexamples -/

/-- Claim C6: calling update_emission_data when the stored record has
last_time >= expiration, or now == last_time, or eps == 0, or supply == 0,
returns the existing record and performs no storage write (the store is returned
unchanged, so the stored ReserveEmissionData is byte-identical). -/
theorem update_emission_data_noop (now id : Nat) (supply ss : Int) (st : Store)
    (d : ReserveEmissionData) (hd : st.resEmis id = some d)
    (h : d.expiration ≤ d.last_time ∨ now = d.last_time ∨ d.eps = 0 ∨ supply = 0) :
    update_emission_data now id supply ss st = .ok (some d, st) := by
  simp only [update_emission_data, hd]
  rw [if_pos h]

/-- Witness for C6 at now = last_time = 3. -/
theorem update_emission_data_noop_witness :
    update_emission_data 3 0 50 1 w6Store = .ok (some ⟨10, 5, 7, 3⟩, w6Store) :=
  update_emission_data_noop 3 0 50 1 w6Store ⟨10, 5, 7, 3⟩ rfl (Or.inr (Or.inl rfl))

/-- Claim C10: when no ReserveEmissionData record is stored for a reserve token id,
update_emissions and claim_emissions are silent no-ops: claim_emissions returns 0
and the store (in particular every ReserveEmissionData and UserEmissionData entry)
is returned unchanged. -/
theorem missing_emission_data_noop (now id : Nat) (supply ss balance : Int) (st : Store)
    (h : st.resEmis id = none) :
    update_emissions now id supply ss balance st = .ok st ∧
    claim_emissions now id supply ss balance st = .ok (0, st) := by
  have hu : update_emission_data now id supply ss st = .ok (none, st) := by
    simp only [update_emission_data, h]
  constructor
  · simp only [update_emissions, hu, ok_bind]
  · simp only [claim_emissions, hu, ok_bind]

/-- Witness for C10 on the empty store. -/
theorem missing_emission_data_noop_witness :
    update_emissions 5 0 50 1 9 baseStore = .ok baseStore ∧
    claim_emissions 5 0 50 1 9 baseStore = .ok (0, baseStore) :=
  missing_emission_data_noop 5 0 50 1 9 baseStore rfl

/-- Claim C8: for every valid pool state (shares = 0, or shares and tokens both
positive), converting 0 gives 0 in both directions; and whenever pool_shares = 0
both conversions are the identity on every input, regardless of pool_tokens. -/
theorem conversion_zero_and_identity (ps pt : Int)
    (h : ps = 0 ∨ (0 < ps ∧ 0 < pt)) :
    certora_convert_to_tokens ps pt 0 = some 0 ∧
    certora_convert_to_shares ps pt 0 = some 0 ∧
    (∀ x : Int, ps = 0 →
      certora_convert_to_shares ps pt x = some x ∧
      certora_convert_to_tokens ps pt x = some x) := by
  rcases h with h0 | ⟨hps, hpt⟩
  · subst h0
    refine ⟨?_, ?_, ?_⟩ <;>
      simp [certora_convert_to_tokens, certora_convert_to_shares]
  · have hps' : ps ≠ 0 := ne_of_gt hps
    have hpt' : pt ≠ 0 := ne_of_gt hpt
    refine ⟨?_, ?_, fun x hx => absurd hx hps'⟩
    · simp [certora_convert_to_tokens, hps', fixed_mul_floor_i64, Int.zero_fdiv, hpt']
      decide
    · simp [certora_convert_to_shares, hps', fixed_mul_floor_i64, Int.zero_fdiv, hpt']
      decide

/-- Witness for C8 at pool_shares = 2, pool_tokens = 3. -/
theorem conversion_zero_and_identity_witness :
    certora_convert_to_tokens 2 3 0 = some 0 ∧
    certora_convert_to_shares 2 3 0 = some 0 ∧
    (∀ x : Int, (2 : Int) = 0 →
      certora_convert_to_shares 2 3 x = some x ∧
      certora_convert_to_tokens 2 3 x = some x) :=
  conversion_zero_and_identity 2 3 (Or.inr ⟨by decide, by decide⟩)

/-- Claim C1: when a stored ReserveEmissionData exists and none of the no-op
conditions hold, update_emission_data sets last_time to min(now, expiration) and
adds exactly floor(((clamped_now - last_time) * eps) * supply_scalar / supply) to
the index, and persists the updated record.  The fitsI128 hypotheses delimit the
protocol's designed magnitude envelope (outside it the checked arithmetic panics,
spec section 7); h5 is the caller invariant that time moves forward (its violation
is claim C5's underflow case). -/
theorem update_emission_data_advances (now id : Nat) (supply ss : Int) (st : Store)
    (d : ReserveEmissionData) (hd : st.resEmis id = some d)
    (h1 : d.last_time < d.expiration) (h2 : now ≠ d.last_time) (h3 : d.eps ≠ 0)
    (h4 : supply ≠ 0) (h5 : d.last_time ≤ min now d.expiration)
    (h6 : fitsI128 (((min now d.expiration - d.last_time : Nat) : Int) * (d.eps : Int)) = true)
    (h7 : fitsI128 ((((min now d.expiration - d.last_time : Nat) : Int) * (d.eps : Int) * ss).fdiv
        supply) = true)
    (h8 : fitsI128 (d.index + (((min now d.expiration - d.last_time : Nat) : Int) * (d.eps : Int)
        * ss).fdiv supply) = true) :
    update_emission_data now id supply ss st =
      .ok (some { expiration := d.expiration, eps := d.eps,
                  index := d.index + (((min now d.expiration - d.last_time : Nat) : Int) *
                    (d.eps : Int) * ss).fdiv supply,
                  last_time := min now d.expiration },
           setResEmis st id
             { expiration := d.expiration, eps := d.eps,
               index := d.index + (((min now d.expiration - d.last_time : Nat) : Int) *
                 (d.eps : Int) * ss).fdiv supply,
               last_time := min now d.expiration }) := by
  have hc : (if d.expiration < now then d.expiration else now) = min now d.expiration := by
    rcases Nat.lt_or_ge d.expiration now with h | h
    · rw [if_pos h, Nat.min_def, if_neg (by omega)]
    · rw [if_neg (not_lt.mpr h), Nat.min_def, if_pos (by omega)]
  have hguard : ¬(d.expiration ≤ d.last_time ∨ now = d.last_time ∨ d.eps = 0 ∨ supply = 0) := by
    push_neg
    exact ⟨h1, h2, h3, h4⟩
  simp only [update_emission_data, hd, hc]
  rw [if_neg hguard, if_neg (not_lt.mpr h5)]
  simp only [checkedMulI128, h6, if_pos, soroban_fixed_div_floor, soroban_mul_div_floor,
    if_neg h4, h7, checkedAddI128, h8, if_true, ok_bind]

/-- Witness for C1: the spec section 8 concrete scenario (eps = 0.01e14,
index = 23456780000000, last_time = 1.5e9, expiration = 1.6e9, now = 1.501e9,
supply = 50e7, supply_scalar = 1e7): last_time advances to 1501000000 and the
index grows by 2e16. -/
theorem update_emission_data_advances_witness :
    update_emission_data 1501000000 2 500000000 10000000 w1Store =
      .ok (some ⟨1600000000, 1000000000000, 20023456780000000, 1501000000⟩,
           setResEmis w1Store 2 ⟨1600000000, 1000000000000, 20023456780000000, 1501000000⟩) := by
  have h := update_emission_data_advances 1501000000 2 500000000 10000000 w1Store
    ⟨1600000000, 1000000000000, 23456780000000, 1500000000⟩ rfl (by decide) (by decide)
    (by decide) (by decide) (by decide) (by decide) (by decide) (by decide)
  exact h

/-- Claim C2: after any update_user_emissions call with claim = true that returns
successfully, the stored UserEmissionData has accrued exactly 0 and index equal to
the stream's current index, and the returned payout equals the pre-claim stored
accrued plus the newly computed accrual delta
(floor(balance * (stream.index - snapshot.index) / (supply_scalar * SCALAR_7)) when
balance is nonzero; the historical amount
floor(balance * stream.index / (supply_scalar * SCALAR_7)) for a first-touch user
with nonzero balance; 0 otherwise). -/
theorem claim_zeroes_accrual (d : ReserveEmissionData) (id : Nat) (ss balance payout : Int)
    (st st' : Store)
    (h : update_user_emissions d id ss balance true st = .ok (payout, st')) :
    st'.userEmis id = some ⟨d.index, 0⟩ ∧
    payout = (match st.userEmis id with
      | some u => u.accrued +
          (if balance ≠ 0 then (balance * (d.index - u.index)).fdiv (ss * SCALAR_7) else 0)
      | none => if balance = 0 then 0 else (balance * d.index).fdiv (ss * SCALAR_7)) := by
  cases hu : st.userEmis id with
  | some u =>
    simp only [update_user_emissions, hu, or_true, if_true] at h
    by_cases hb : balance ≠ 0
    · rw [if_pos hb, except_bind_ok] at h
      obtain ⟨delta, hdelta, h⟩ := h
      have hdel := checkedSubI128_ok hdelta
      split at h
      · simp at h
      · rw [except_bind_ok] at h
        obtain ⟨denom, hdenom, h⟩ := h
        have hden := checkedMulI128_ok hdenom
        rw [except_bind_ok] at h
        obtain ⟨ta, hta, h⟩ := h
        have hta' := (soroban_mul_div_floor_ok hta).1
        rw [except_bind_ok] at h
        obtain ⟨acc, hacc, h⟩ := h
        have hacc' := checkedAddI128_ok hacc
        simp only [set_user_emissions, if_true, Except.ok.injEq, Prod.mk.injEq] at h
        obtain ⟨hpay, hst⟩ := h
        subst hst
        refine ⟨by simp [setUserEmis], ?_⟩
        simp only [if_pos hb, ← hpay, hacc', hta', hden, hdel]
    · rw [if_neg hb] at h
      simp only [set_user_emissions, if_true, Except.ok.injEq, Prod.mk.injEq] at h
      obtain ⟨hpay, hst⟩ := h
      subst hst
      refine ⟨by simp [setUserEmis], ?_⟩
      simp only [if_neg hb, add_zero]
      exact hpay.symm
  | none =>
    simp only [update_user_emissions, hu] at h
    by_cases hb : balance = 0
    · rw [if_pos hb] at h
      simp only [set_user_emissions, if_true, Except.ok.injEq, Prod.mk.injEq] at h
      obtain ⟨hpay, hst⟩ := h
      subst hst
      refine ⟨by simp [setUserEmis], ?_⟩
      simp only [if_pos hb, ← hpay]
    · rw [if_neg hb, except_bind_ok] at h
      obtain ⟨denom, hdenom, h⟩ := h
      have hden := checkedMulI128_ok hdenom
      rw [except_bind_ok] at h
      obtain ⟨ta, hta, h⟩ := h
      have hta' := (soroban_mul_div_floor_ok hta).1
      simp only [set_user_emissions, if_true, Except.ok.injEq, Prod.mk.injEq] at h
      obtain ⟨hpay, hst⟩ := h
      subst hst
      refine ⟨by simp [setUserEmis], ?_⟩
      simp only [if_neg hb, ← hpay, hta', hden]

/-- Witness for C2: snapshot index 5 with accrued 7, stream index 9, balance 10:
payout is 7 + floor(10 * 4 / 1e7) = 7 and the stored snapshot becomes (9, 0). -/
theorem claim_zeroes_accrual_witness :
    (setUserEmis w2Store 0 ⟨9, 0⟩).userEmis 0 = some ⟨9, 0⟩ ∧
    (7 : Int) = (match w2Store.userEmis 0 with
      | some u => u.accrued +
          (if (10 : Int) ≠ 0 then ((10 : Int) * ((9 : Int) - u.index)).fdiv (1 * SCALAR_7) else 0)
      | none => if (10 : Int) = 0 then 0 else ((10 : Int) * (9 : Int)).fdiv (1 * SCALAR_7)) :=
  claim_zeroes_accrual ⟨10, 1, 9, 0⟩ 0 1 10 7 w2Store (setUserEmis w2Store 0 ⟨9, 0⟩) rfl

/-- Counterexample for C5 as stated: a prior snapshot with index 2 exists, the
stream index is 1 (so snapshot.index > stream.index), balance = 0 and claim = true,
yet update_user_emissions succeeds (returns payout 0) instead of failing with the
NegativeIndexDelta condition: the check is skipped entirely when balance == 0. -/
theorem negative_delta_unchecked_counterexample :
    cex5Store.userEmis 0 = some ⟨2, 0⟩ ∧
    ((update_user_emissions ⟨10, 1, 1, 0⟩ 0 1 0 true cex5Store).toOption.map Prod.fst)
      = some 0 :=
  ⟨rfl, rfl⟩

/-- Claim C5 (amended): monotonicity violations are fatal where the code checks
them: in update_emission_data, once the no-op guards pass, clamped_now <
stream.last_time faults with an arithmetic underflow; and in update_user_emissions,
a prior snapshot with snapshot.index > stream.index fails with the
NegativeIndexDelta condition for every NONZERO balance and for both claim modes
(the fitsI128 hypothesis keeps the checked i128 subtraction itself from
overflowing first).  With balance == 0 the check is skipped (see the
counterexample). -/
theorem monotonicity_violations_fault :
    (∀ (now id : Nat) (supply ss : Int) (st : Store) (d : ReserveEmissionData),
      st.resEmis id = some d →
      d.last_time < d.expiration → now ≠ d.last_time → d.eps ≠ 0 → supply ≠ 0 →
      min now d.expiration < d.last_time →
      update_emission_data now id supply ss st = .error .ArithUnderflow) ∧
    (∀ (d : ReserveEmissionData) (id : Nat) (ss balance : Int) (claim : Bool) (st : Store)
      (u : UserEmissionData),
      st.userEmis id = some u → d.index < u.index → balance ≠ 0 →
      fitsI128 (d.index - u.index) = true →
      update_user_emissions d id ss balance claim st = .error .NegativeAmount) := by
  constructor
  · intro now id supply ss st d hd h1 h2 h3 h4 h5
    have hc : (if d.expiration < now then d.expiration else now) = min now d.expiration := by
      rcases Nat.lt_or_ge d.expiration now with h | h
      · rw [if_pos h, Nat.min_def, if_neg (by omega)]
      · rw [if_neg (not_lt.mpr h), Nat.min_def, if_pos (by omega)]
    have hguard : ¬(d.expiration ≤ d.last_time ∨ now = d.last_time ∨ d.eps = 0 ∨ supply = 0) := by
      push_neg
      exact ⟨h1, h2, h3, h4⟩
    simp only [update_emission_data, hd, hc]
    rw [if_neg hguard, if_pos h5]
  · intro d id ss balance claim st u hu hlt hb hfits
    have hne : u.index ≠ d.index ∨ claim = true := Or.inl (by omega)
    have hsub : checkedSubI128 d.index u.index = .ok (d.index - u.index) := by
      unfold checkedSubI128
      rw [if_pos hfits]
    simp only [update_user_emissions, hu]
    rw [if_pos hne, if_pos hb, hsub, ok_bind, if_pos (by omega : d.index - u.index < 0)]

/-- Witness for C5 (amended): both conjuncts at concrete inputs. -/
theorem monotonicity_violations_fault_witness :
    update_emission_data 3 0 1 1 w5aStore = .error .ArithUnderflow ∧
    update_user_emissions ⟨10, 1, 1, 0⟩ 0 1 5 true cex5Store = .error .NegativeAmount :=
  ⟨monotonicity_violations_fault.1 3 0 1 1 w5aStore ⟨10, 1, 0, 5⟩ rfl (by decide) (by decide)
      (by decide) (by decide) (by decide),
   monotonicity_violations_fault.2 ⟨10, 1, 1, 0⟩ 0 1 5 true cex5Store ⟨2, 0⟩ rfl (by decide)
      (by decide) (by decide)⟩

/-- Counterexample for C3 as stated: a single update_emission_data call with a
negative supply argument (supply = -1) drives the stored index from 0 down to -1,
so the stored index can decrease. -/
theorem index_monotonic_counterexample :
    (cex3Store.resEmis 0).map (fun d => d.index) = some 0 ∧
    ((update_emission_data 1 0 (-1) 1 cex3Store).toOption.map
        (fun p => p.1.map (fun d => d.index))) = some (some (-1)) :=
  ⟨rfl, rfl⟩

/-- Reading back the reserve-emission key just written. -/
theorem setResEmis_resEmis_self (st : Store) (id : Nat) (v : ReserveEmissionData) :
    (setResEmis st id v).resEmis id = some v := by
  simp [setResEmis]

/-- Reading back the user-emission key just written. -/
theorem setUserEmis_userEmis_self (st : Store) (id : Nat) (v : UserEmissionData) :
    (setUserEmis st id v).userEmis id = some v := by
  simp [setUserEmis]

/-- Single-call index monotonicity: with nonnegative supply and supply_scalar
arguments, a successful update_emission_data call never decreases the stored
index. -/
theorem update_emission_data_index_mono (now id : Nat) (supply ss : Int) (st : Store)
    (hsup : 0 ≤ supply) (hss : 0 ≤ ss) (d : ReserveEmissionData) (hd : st.resEmis id = some d)
    (r : Option ReserveEmissionData) (st' : Store)
    (h : update_emission_data now id supply ss st = .ok (r, st')) :
    ∃ d', st'.resEmis id = some d' ∧ d.index ≤ d'.index := by
  simp only [update_emission_data, hd] at h
  split at h
  · injection h with h
    rw [Prod.mk.injEq] at h
    obtain ⟨hr, hst⟩ := h
    subst hst
    exact ⟨d, hd, le_refl _⟩
  · split at h <;>
      (split at h
       · exact absurd h (by simp)
       · rw [except_bind_ok] at h
         obtain ⟨prod, hprod, h⟩ := h
         have hprod' := checkedMulI128_ok hprod
         simp only [soroban_fixed_div_floor] at h
         rw [except_bind_ok] at h
         obtain ⟨add, hadd, h⟩ := h
         have hadd' := (soroban_mul_div_floor_ok hadd).1
         have hz := (soroban_mul_div_floor_ok hadd).2
         rw [except_bind_ok] at h
         obtain ⟨ni, hni, h⟩ := h
         have hni' := checkedAddI128_ok hni
         injection h with h
         rw [Prod.mk.injEq] at h
         obtain ⟨hr, hst⟩ := h
         subst hst
         refine ⟨_, setResEmis_resEmis_self st id _, ?_⟩
         have hprodnn : 0 ≤ prod := by
           rw [hprod']
           exact mul_nonneg (Int.natCast_nonneg _) (Int.natCast_nonneg _)
         have hsuppos : 0 < supply := lt_of_le_of_ne hsup (Ne.symm hz)
         have haddnn : 0 ≤ add := by
           rw [hadd']
           exact Int.fdiv_nonneg (mul_nonneg hprodnn hss) (le_of_lt hsuppos)
         show d.index ≤ ni
         omega)

/-- Claim C3 (amended): for any sequence of update_emission_data calls on one
reward stream with non-decreasing now timestamps and NONNEGATIVE supply and
supply_scalar arguments, the stored index never decreases (calls that panic
commit nothing). -/
theorem index_monotonic_over_calls (id : Nat) (calls : List (Nat × Int × Int)) :
    ∀ (st : Store), calls.Chain' (fun a b => a.1 ≤ b.1) →
    (∀ c ∈ calls, 0 ≤ c.2.1 ∧ 0 ≤ c.2.2) →
    ∀ (d d' : ReserveEmissionData), st.resEmis id = some d →
    (applyCalls id calls st).resEmis id = some d' → d.index ≤ d'.index := by
  induction calls with
  | nil =>
    intro st _ _ d d' h0 h1
    simp only [applyCalls] at h1
    rw [h0] at h1
    injection h1 with h1
    rw [h1]
  | cons c rest ih =>
    intro st hchain hpos d d' h0 h1
    simp only [applyCalls] at h1
    cases hstep : update_emission_data c.1 id c.2.1 c.2.2 st with
    | error e =>
      rw [hstep] at h1
      exact ih st hchain.tail (fun x hx => hpos x (List.mem_cons_of_mem _ hx)) d d' h0 h1
    | ok p =>
      obtain ⟨r, st2⟩ := p
      rw [hstep] at h1
      obtain ⟨hc1, hc2⟩ := hpos c (List.mem_cons_self _ _)
      obtain ⟨d'', hd'', hle⟩ :=
        update_emission_data_index_mono c.1 id c.2.1 c.2.2 st hc1 hc2 d h0 r st2 hstep
      have h1' : (applyCalls id rest st2).resEmis id = some d' := h1
      exact le_trans hle
        (ih st2 hchain.tail (fun x hx => hpos x (List.mem_cons_of_mem _ hx)) d'' d' hd'' h1')

/-- Witness for C3 (amended): one call advancing the index from 0 to 1. -/
theorem index_monotonic_over_calls_witness :
    (applyCalls 0 [(1, 1, 1)] w3Store).resEmis 0 = some ⟨10, 1, 1, 1⟩ ∧
    ((⟨10, 1, 0, 0⟩ : ReserveEmissionData)).index ≤
      ((⟨10, 1, 1, 1⟩ : ReserveEmissionData)).index :=
  ⟨rfl,
   index_monotonic_over_calls 0 [(1, 1, 1)] w3Store (by simp)
     (by
       intro c hc
       rw [List.mem_singleton] at hc
       subst hc
       exact ⟨by decide, by decide⟩)
     ⟨10, 1, 0, 0⟩ ⟨10, 1, 1, 1⟩ rfl rfl⟩

/-- Inversion for the i64 fixed-point multiply-divide. -/
theorem fixed_mul_floor_i64_ok {x y denom v : Int} (h : fixed_mul_floor_i64 x y denom = some v) :
    v = (x * y).fdiv denom ∧ denom ≠ 0 := by
  unfold fixed_mul_floor_i64 at h
  split at h
  · split at h
    · simp at h
    · split at h
      · injection h with h
        exact ⟨h.symm, by assumption⟩
      · simp at h
  · simp at h

/-- Floor-division round trip never inflates: floor(floor(x*a/b)*b/a) <= x for
positive a, b. -/
theorem fdiv_roundtrip_le (a b x : Int) (ha : 0 < a) (hb : 0 < b) :
    (((x * a).fdiv b) * b).fdiv a ≤ x := by
  have h1 : (x * a).fdiv b = (x * a) / b := Int.fdiv_eq_ediv _ (le_of_lt hb)
  have h2 : ((x * a).fdiv b * b).fdiv a = ((x * a).fdiv b * b) / a :=
    Int.fdiv_eq_ediv _ (le_of_lt ha)
  rw [h2, h1]
  calc (x * a / b * b) / a ≤ (x * a) / a :=
        Int.ediv_le_ediv ha (Int.ediv_mul_le _ (ne_of_gt hb))
    _ = x := Int.mul_ediv_cancel _ (ne_of_gt ha)

/-- Claim C4: for every pool state with shares > 0 and tokens > 0 and every input
x >= 0, the round-trip conversions never inflate: whenever both conversions
succeed, convert_to_tokens(convert_to_shares(x)) <= x and
convert_to_shares(convert_to_tokens(x)) <= x. -/
theorem roundtrip_non_inflation (ps pt x : Int) (hps : 0 < ps) (hpt : 0 < pt) (_hx : 0 ≤ x) :
    (∀ s t, certora_convert_to_shares ps pt x = some s →
      certora_convert_to_tokens ps pt s = some t → t ≤ x) ∧
    (∀ t s, certora_convert_to_tokens ps pt x = some t →
      certora_convert_to_shares ps pt t = some s → s ≤ x) := by
  have hps' : ps ≠ 0 := ne_of_gt hps
  constructor
  · intro s t hs ht
    rw [certora_convert_to_shares, if_neg hps'] at hs
    rw [certora_convert_to_tokens, if_neg hps'] at ht
    obtain ⟨hs', -⟩ := fixed_mul_floor_i64_ok hs
    obtain ⟨ht', -⟩ := fixed_mul_floor_i64_ok ht
    rw [ht', hs']
    exact fdiv_roundtrip_le ps pt x hps hpt
  · intro t s ht hs
    rw [certora_convert_to_tokens, if_neg hps'] at ht
    rw [certora_convert_to_shares, if_neg hps'] at hs
    obtain ⟨ht', -⟩ := fixed_mul_floor_i64_ok ht
    obtain ⟨hs', -⟩ := fixed_mul_floor_i64_ok hs
    rw [hs', ht']
    exact fdiv_roundtrip_le pt ps x hpt hps

/-- Witness for C4 at pool_shares = 2, pool_tokens = 3, input 7: both round trips
land at 6 <= 7. -/
theorem roundtrip_non_inflation_witness :
    certora_convert_to_shares 2 3 7 = some 4 ∧ certora_convert_to_tokens 2 3 4 = some 6 ∧
    certora_convert_to_tokens 2 3 7 = some 10 ∧ certora_convert_to_shares 2 3 10 = some 6 ∧
    (6 : Int) ≤ 7 ∧ (6 : Int) ≤ 7 :=
  ⟨rfl, rfl, rfl, rfl,
   (roundtrip_non_inflation 2 3 7 (by decide) (by decide) (by decide)).1 4 6 rfl rfl,
   (roundtrip_non_inflation 2 3 7 (by decide) (by decide) (by decide)).2 10 6 rfl rfl⟩

/-- A successful checked addition certifies that the sum fits i128. -/
theorem checkedAddI128_ok_fits {x y v : Int} (h : checkedAddI128 x y = .ok v) :
    fitsI128 (x + y) = true := by
  unfold checkedAddI128 at h
  split at h
  · assumption
  · simp at h

/-- A successful checked multiplication certifies that the product fits i128. -/
theorem checkedMulI128_ok_fits {x y v : Int} (h : checkedMulI128 x y = .ok v) :
    fitsI128 (x * y) = true := by
  unfold checkedMulI128 at h
  split at h
  · assumption
  · simp at h

/-- Writing back the value already stored at a user-emission key is a no-op. -/
theorem setUserEmis_self_eq (st : Store) (id : Nat) (v : UserEmissionData)
    (h : st.userEmis id = some v) : setUserEmis st id v = st := by
  unfold setUserEmis
  have hf : (fun k => if k = id then some v else st.userEmis k) = st.userEmis := by
    funext k
    by_cases hk : k = id
    · rw [if_pos hk, hk, h]
    · rw [if_neg hk]
  rw [hf]

/-- A successful update_emission_data call leaves the store unchanged or writes
exactly one reserve-emission record at its own key. -/
theorem update_emission_data_writes {now id : Nat} {supply ss : Int} {st st' : Store}
    {r : Option ReserveEmissionData}
    (h : update_emission_data now id supply ss st = .ok (r, st')) :
    st' = st ∨ ∃ d', st' = setResEmis st id d' := by
  cases hd : st.resEmis id with
  | none =>
    simp only [update_emission_data, hd] at h
    injection h with h
    rw [Prod.mk.injEq] at h
    exact Or.inl h.2.symm
  | some d =>
    simp only [update_emission_data, hd] at h
    split at h
    · injection h with h
      rw [Prod.mk.injEq] at h
      exact Or.inl h.2.symm
    · split at h <;>
        (split at h
         · exact absurd h (by simp)
         · rw [except_bind_ok] at h
           obtain ⟨prod, hprod, h⟩ := h
           rw [except_bind_ok] at h
           obtain ⟨add, hadd, h⟩ := h
           rw [except_bind_ok] at h
           obtain ⟨ni, hni, h⟩ := h
           injection h with h
           rw [Prod.mk.injEq] at h
           exact Or.inr ⟨_, h.2.symm⟩)

/-- A successful update_user_emissions call leaves the store unchanged or writes
exactly one user-emission record at its own key. -/
theorem update_user_emissions_writes {d : ReserveEmissionData} {id : Nat}
    {ss balance : Int} {claim : Bool} {st st' : Store} {v : Int}
    (h : update_user_emissions d id ss balance claim st = .ok (v, st')) :
    st' = st ∨ ∃ u', st' = setUserEmis st id u' := by
  cases hu : st.userEmis id with
  | some u =>
    simp only [update_user_emissions, hu] at h
    split at h
    · split at h
      · rw [except_bind_ok] at h
        obtain ⟨delta, hdelta, h⟩ := h
        split at h
        · exact absurd h (by simp)
        · rw [except_bind_ok] at h
          obtain ⟨denom, hdenom, h⟩ := h
          rw [except_bind_ok] at h
          obtain ⟨ta, hta, h⟩ := h
          rw [except_bind_ok] at h
          obtain ⟨acc, hacc, h⟩ := h
          injection h with h
          simp only [set_user_emissions] at h
          rw [Prod.mk.injEq] at h
          split at h
          · exact Or.inr ⟨_, h.2.symm⟩
          · exact Or.inr ⟨_, h.2.symm⟩
      · injection h with h
        simp only [set_user_emissions] at h
        rw [Prod.mk.injEq] at h
        split at h
        · exact Or.inr ⟨_, h.2.symm⟩
        · exact Or.inr ⟨_, h.2.symm⟩
    · injection h with h
      rw [Prod.mk.injEq] at h
      exact Or.inl h.2.symm
  | none =>
    simp only [update_user_emissions, hu] at h
    split at h
    · injection h with h
      simp only [set_user_emissions] at h
      rw [Prod.mk.injEq] at h
      split at h
      · exact Or.inr ⟨_, h.2.symm⟩
      · exact Or.inr ⟨_, h.2.symm⟩
    · rw [except_bind_ok] at h
      obtain ⟨denom, hdenom, h⟩ := h
      rw [except_bind_ok] at h
      obtain ⟨ta, hta, h⟩ := h
      injection h with h
      simp only [set_user_emissions] at h
      rw [Prod.mk.injEq] at h
      split at h
      · exact Or.inr ⟨_, h.2.symm⟩
      · exact Or.inr ⟨_, h.2.symm⟩

/-- setResEmis leaves every other reserve-emission key unchanged. -/
theorem setResEmis_resEmis_ne (st : Store) (id k : Nat) (d : ReserveEmissionData)
    (h : k ≠ id) : (setResEmis st id d).resEmis k = st.resEmis k := by
  simp [setResEmis, h]

/-- setUserEmis leaves every other user-emission key unchanged. -/
theorem setUserEmis_userEmis_ne (st : Store) (id k : Nat) (u : UserEmissionData)
    (h : k ≠ id) : (setUserEmis st id u).userEmis k = st.userEmis k := by
  simp [setUserEmis, h]

/-- update_emission_data touches nothing but the reserve-emission map. -/
theorem update_emission_data_preserves {now id : Nat} {supply ss : Int} {st st' : Store}
    {r : Option ReserveEmissionData}
    (h : update_emission_data now id supply ss st = .ok (r, st')) :
    st'.resList = st.resList ∧ st'.resConfig = st.resConfig ∧ st'.resData = st.resData ∧
    st'.liabilities = st.liabilities ∧ st'.totalSupply = st.totalSupply ∧
    st'.userEmis = st.userEmis ∧ ∀ k, k ≠ id → st'.resEmis k = st.resEmis k := by
  rcases update_emission_data_writes h with h' | ⟨d', h'⟩ <;> subst h'
  · exact ⟨rfl, rfl, rfl, rfl, rfl, rfl, fun _ _ => rfl⟩
  · exact ⟨rfl, rfl, rfl, rfl, rfl, rfl, fun k hk => setResEmis_resEmis_ne st id k d' hk⟩

/-- update_user_emissions touches nothing but the user-emission map. -/
theorem update_user_emissions_preserves {d : ReserveEmissionData} {id : Nat}
    {ss balance : Int} {claim : Bool} {st st' : Store} {v : Int}
    (h : update_user_emissions d id ss balance claim st = .ok (v, st')) :
    st'.resList = st.resList ∧ st'.resConfig = st.resConfig ∧ st'.resData = st.resData ∧
    st'.liabilities = st.liabilities ∧ st'.totalSupply = st.totalSupply ∧
    st'.resEmis = st.resEmis ∧ ∀ k, k ≠ id → st'.userEmis k = st.userEmis k := by
  rcases update_user_emissions_writes h with h' | ⟨u', h'⟩ <;> subst h'
  · exact ⟨rfl, rfl, rfl, rfl, rfl, rfl, fun _ _ => rfl⟩
  · exact ⟨rfl, rfl, rfl, rfl, rfl, rfl, fun k hk => setUserEmis_userEmis_ne st id k u' hk⟩

/-- Running update_emission_data from a no-op state returns the stored record and
the unchanged store. -/
theorem emis_noop_run (now id : Nat) (supply ss : Int) (st : Store)
    (h : EmisNoop now id supply st) :
    update_emission_data now id supply ss st = .ok (st.resEmis id, st) := by
  cases hd : st.resEmis id with
  | none => simp only [update_emission_data, hd]
  | some d =>
    simp only [update_emission_data, hd]
    rw [if_pos (h d hd)]

/-- A successful update_emission_data call leaves the stream in a no-op state for
the same timestamp and supply, returning exactly the stored record. -/
theorem emis_noop_establish {now id : Nat} {supply ss : Int} {st st' : Store}
    {r : Option ReserveEmissionData}
    (h : update_emission_data now id supply ss st = .ok (r, st')) :
    EmisNoop now id supply st' ∧ st'.resEmis id = r := by
  cases hd : st.resEmis id with
  | none =>
    simp only [update_emission_data, hd] at h
    injection h with h
    rw [Prod.mk.injEq] at h
    obtain ⟨hr, hst⟩ := h
    subst hst
    constructor
    · intro d0 hd0
      rw [hd] at hd0
      cases hd0
    · rw [hd]
      exact hr
  | some d =>
    simp only [update_emission_data, hd] at h
    split at h
    · rename_i hg
      injection h with h
      rw [Prod.mk.injEq] at h
      obtain ⟨hr, hst⟩ := h
      subst hst
      constructor
      · intro d0 hd0
        rw [hd] at hd0
        injection hd0 with hd0
        subst hd0
        exact hg
      · rw [hd]
        exact hr
    · split at h <;>
        (split at h
         · exact absurd h (by simp)
         · rw [except_bind_ok] at h
           obtain ⟨prod, hprod, h⟩ := h
           rw [except_bind_ok] at h
           obtain ⟨add, hadd, h⟩ := h
           rw [except_bind_ok] at h
           obtain ⟨ni, hni, h⟩ := h
           injection h with h
           rw [Prod.mk.injEq] at h
           obtain ⟨hr, hst⟩ := h
           subst hst
           constructor
           · intro d0 hd0
             rw [setResEmis_resEmis_self] at hd0
             injection hd0 with hd0
             subst hd0
             first
               | exact Or.inl (le_refl _)
               | exact Or.inr (Or.inl rfl)
           · rw [setResEmis_resEmis_self]
             exact hr)

/-- The zero value fits i128. -/
theorem fitsI128_zero : fitsI128 0 = true := by decide

/-- Claiming against a snapshot already at the stream index with zero accrued is a
no-op paying zero, provided the scaled denominator is well formed (or the balance
is zero, in which case it is never computed). -/
theorem user_fixed_run (d : ReserveEmissionData) (id : Nat) (scalar balance : Int)
    (st : Store) (hu : st.userEmis id = some ⟨d.index, 0⟩)
    (hden : balance = 0 ∨ (fitsI128 (scalar * SCALAR_7) = true ∧ scalar * SCALAR_7 ≠ 0)) :
    update_user_emissions d id scalar balance true st = .ok (0, st) := by
  simp only [update_user_emissions, hu, or_true, if_true]
  by_cases hb : balance ≠ 0
  · rcases hden with h0 | ⟨hfits, hnz⟩
    · exact absurd h0 hb
    · rw [if_pos hb]
      have hsub : checkedSubI128 d.index (⟨d.index, 0⟩ : UserEmissionData).index = .ok 0 := by
        unfold checkedSubI128
        simp [fitsI128_zero]
      rw [hsub, ok_bind, if_neg (by omega : ¬(0 : Int) < 0)]
      have hmul : checkedMulI128 scalar SCALAR_7 = .ok (scalar * SCALAR_7) := by
        unfold checkedMulI128
        rw [if_pos hfits]
      rw [hmul, ok_bind]
      have hsor : soroban_fixed_mul_floor balance 0 (scalar * SCALAR_7) = .ok 0 := by
        unfold soroban_fixed_mul_floor soroban_mul_div_floor
        rw [if_neg hnz]
        simp [fitsI128_zero, Int.zero_fdiv]
      rw [hsor, ok_bind]
      have hadd : checkedAddI128 (⟨d.index, 0⟩ : UserEmissionData).accrued 0 = .ok 0 := by
        unfold checkedAddI128
        simp [fitsI128_zero]
      rw [hadd, ok_bind]
      simp only [set_user_emissions, if_pos]
      rw [setUserEmis_self_eq st id ⟨d.index, 0⟩ hu]
  · rw [if_neg hb]
    simp only [set_user_emissions, if_pos]
    rw [setUserEmis_self_eq st id ⟨d.index, 0⟩ hu]

/-- A successful claiming reconciliation leaves the snapshot at (stream index, 0)
and, when the balance is nonzero, certifies the scaled denominator. -/
theorem user_claim_establish {d : ReserveEmissionData} {id : Nat}
    {scalar balance v : Int} {st st' : Store}
    (h : update_user_emissions d id scalar balance true st = .ok (v, st')) :
    st'.userEmis id = some ⟨d.index, 0⟩ ∧
    (balance = 0 ∨ (fitsI128 (scalar * SCALAR_7) = true ∧ scalar * SCALAR_7 ≠ 0)) := by
  cases hu : st.userEmis id with
  | some u =>
    simp only [update_user_emissions, hu, or_true, if_true] at h
    by_cases hb : balance ≠ 0
    · rw [if_pos hb] at h
      rw [except_bind_ok] at h
      obtain ⟨delta, hdelta, h⟩ := h
      split at h
      · exact absurd h (by simp)
      · rw [except_bind_ok] at h
        obtain ⟨denom, hdenom, h⟩ := h
        rw [except_bind_ok] at h
        obtain ⟨ta, hta, h⟩ := h
        rw [except_bind_ok] at h
        obtain ⟨acc, hacc, h⟩ := h
        simp only [set_user_emissions, if_pos, Except.ok.injEq, Prod.mk.injEq] at h
        obtain ⟨hv, hst⟩ := h
        subst hst
        refine ⟨setUserEmis_userEmis_self st id _, Or.inr ⟨?_, ?_⟩⟩
        · have := checkedMulI128_ok_fits hdenom
          exact this
        · have hd1 := checkedMulI128_ok hdenom
          have hd2 := (soroban_mul_div_floor_ok hta).2
          rw [← hd1]
          exact hd2
    · rw [if_neg hb] at h
      simp only [set_user_emissions, if_pos, Except.ok.injEq, Prod.mk.injEq] at h
      obtain ⟨hv, hst⟩ := h
      subst hst
      exact ⟨setUserEmis_userEmis_self st id _, Or.inl (by omega)⟩
  | none =>
    simp only [update_user_emissions, hu] at h
    by_cases hb : balance = 0
    · rw [if_pos hb] at h
      simp only [set_user_emissions, if_pos, Except.ok.injEq, Prod.mk.injEq] at h
      obtain ⟨hv, hst⟩ := h
      subst hst
      exact ⟨setUserEmis_userEmis_self st id _, Or.inl hb⟩
    · rw [if_neg hb] at h
      rw [except_bind_ok] at h
      obtain ⟨denom, hdenom, h⟩ := h
      rw [except_bind_ok] at h
      obtain ⟨ta, hta, h⟩ := h
      simp only [set_user_emissions, if_pos, Except.ok.injEq, Prod.mk.injEq] at h
      obtain ⟨hv, hst⟩ := h
      subst hst
      refine ⟨setUserEmis_userEmis_self st id _, Or.inr ⟨checkedMulI128_ok_fits hdenom, ?_⟩⟩
      have hd1 := checkedMulI128_ok hdenom
      have hd2 := (soroban_mul_div_floor_ok hta).2
      rw [← hd1]
      exact hd2

/-- Running the claim loop body from a fixed point pays zero and changes nothing. -/
theorem claim_step_fixed_run {now x : Nat} {st : Store} (h : StepFixed now x st) :
    claim_step now x st = .ok (0, st) := by
  obtain ⟨addr, haddr, scalar, hscalar, hrest⟩ := h
  simp only [claim_step, haddr, hscalar, ok_bind]
  rcases hrest with hnone | ⟨d, hd, hguard, hu, hden⟩
  · have hemis : EmisNoop now x (supplyOf st addr x) st := fun d0 hd0 => by
      rw [hnone] at hd0
      cases hd0
    simp only [claim_emissions, emis_noop_run now x _ scalar st hemis, ok_bind, hnone]
  · have hemis : EmisNoop now x (supplyOf st addr x) st := fun d0 hd0 => by
      rw [hd] at hd0
      injection hd0 with hd0
      subst hd0
      exact hguard
    simp only [claim_emissions, emis_noop_run now x _ scalar st hemis, ok_bind, hd]
    exact user_fixed_run d x scalar (balanceOf st x) st hu hden

/-- A successful claim loop body establishes the fixed point for its own id. -/
theorem claim_step_establish {now x : Nat} {v : Int} {st st' : Store}
    (h : claim_step now x st = .ok (v, st')) : StepFixed now x st' := by
  cases haddr : st.resList[x / 2]? with
  | none => simp [claim_step, haddr] at h
  | some addr =>
    simp only [claim_step, haddr] at h
    rw [except_bind_ok] at h
    obtain ⟨scalar, hscalar, h⟩ := h
    simp only [claim_emissions] at h
    rw [except_bind_ok] at h
    obtain ⟨p, hup, h⟩ := h
    obtain ⟨r, st1⟩ := p
    have hnoop := emis_noop_establish hup
    obtain ⟨hL1, hC1, hD1, hLi1, hT1, hUE1, hK1⟩ := update_emission_data_preserves hup
    cases r with
    | none =>
      injection h with h
      rw [Prod.mk.injEq] at h
      obtain ⟨hv, hst⟩ := h
      subst hst
      refine ⟨addr, ?_, scalar, ?_, Or.inl hnoop.2⟩
      · rw [hL1]
        exact haddr
      · rw [hC1]
        exact hscalar
    | some d =>
      have hu2 := user_claim_establish h
      obtain ⟨hL2, hC2, hD2, hLi2, hT2, hRE2, hK2⟩ := update_user_emissions_preserves h
      refine ⟨addr, ?_, scalar, ?_, Or.inr ⟨d, ?_, ?_, hu2.1, ?_⟩⟩
      · rw [hL2, hL1]
        exact haddr
      · rw [hC2, hC1]
        exact hscalar
      · rw [hRE2]
        exact hnoop.2
      · have hsup : supplyOf st' addr x = supplyOf st addr x := by
          unfold supplyOf
          rw [hD2, hD1]
        rw [hsup]
        exact hnoop.1 d hnoop.2
      · have hbal : balanceOf st' x = balanceOf st x := by
          unfold balanceOf
          rw [hLi2, hLi1, hT2, hT1]
        rw [hbal]
        exact hu2.2

/-- The claim loop body only writes the two emission keys of its own id. -/
theorem claim_step_preserves {now x : Nat} {v : Int} {st st' : Store}
    (h : claim_step now x st = .ok (v, st')) :
    st'.resList = st.resList ∧ st'.resConfig = st.resConfig ∧ st'.resData = st.resData ∧
    st'.liabilities = st.liabilities ∧ st'.totalSupply = st.totalSupply ∧
    ∀ k, k ≠ x → st'.resEmis k = st.resEmis k ∧ st'.userEmis k = st.userEmis k := by
  cases haddr : st.resList[x / 2]? with
  | none => simp [claim_step, haddr] at h
  | some addr =>
    simp only [claim_step, haddr] at h
    rw [except_bind_ok] at h
    obtain ⟨scalar, hscalar, h⟩ := h
    simp only [claim_emissions] at h
    rw [except_bind_ok] at h
    obtain ⟨p, hup, h⟩ := h
    obtain ⟨r, st1⟩ := p
    obtain ⟨hL1, hC1, hD1, hLi1, hT1, hUE1, hK1⟩ := update_emission_data_preserves hup
    cases r with
    | none =>
      injection h with h
      rw [Prod.mk.injEq] at h
      obtain ⟨hv, hst⟩ := h
      subst hst
      exact ⟨hL1, hC1, hD1, hLi1, hT1, fun k hk =>
        ⟨hK1 k hk, by rw [hUE1]⟩⟩
    | some d =>
      obtain ⟨hL2, hC2, hD2, hLi2, hT2, hRE2, hK2⟩ := update_user_emissions_preserves h
      refine ⟨by rw [hL2, hL1], by rw [hC2, hC1], by rw [hD2, hD1], by rw [hLi2, hLi1],
        by rw [hT2, hT1], fun k hk => ⟨by rw [hRE2, hK1 k hk], by rw [hK2 k hk, hUE1]⟩⟩

/-- Processing a different id preserves a fixed point. -/
theorem claim_step_fixed_frame {now x k : Nat} {v : Int} {st st' : Store}
    (h : claim_step now x st = .ok (v, st')) (hne : x ≠ k) (hfix : StepFixed now k st) :
    StepFixed now k st' := by
  obtain ⟨hL, hC, hD, hLi, hT, hK⟩ := claim_step_preserves h
  obtain ⟨hRE, hUE⟩ := hK k (Ne.symm hne)
  obtain ⟨addr, haddr, scalar, hscalar, hrest⟩ := hfix
  refine ⟨addr, by rw [hL]; exact haddr, scalar, by rw [hC]; exact hscalar, ?_⟩
  have hsup : supplyOf st' addr k = supplyOf st addr k := by
    unfold supplyOf
    rw [hD]
  have hbal : balanceOf st' k = balanceOf st k := by
    unfold balanceOf
    rw [hLi, hT]
  rcases hrest with hnone | ⟨d, hd, hguard, hu, hden⟩
  · exact Or.inl (by rw [hRE]; exact hnone)
  · exact Or.inr ⟨d, by rw [hRE]; exact hd, by rw [hsup]; exact hguard,
      by rw [hUE]; exact hu, by rw [hbal]; exact hden⟩

/-- If an id is at its fixed point, every later occurrence of it in a batch pays
zero and commits nothing, so it can be dropped from the batch. -/
theorem claim_loop_skip_fixed (now x : Nat) :
    ∀ (l : List Nat) (st : Store) (acc : Int), StepFixed now x st → fitsI128 acc = true →
    claim_loop now l acc st = claim_loop now (l.filter (fun k => k != x)) acc st := by
  intro l
  induction l with
  | nil =>
    intro st acc _ _
    rfl
  | cons k rest ih =>
    intro st acc hfix hacc
    by_cases hk : k = x
    · subst hk
      rw [List.filter_cons_of_neg (by simp)]
      simp only [claim_loop, claim_step_fixed_run hfix, ok_bind]
      have haddz : checkedAddI128 acc 0 = .ok acc := by
        unfold checkedAddI128
        rw [add_zero, if_pos hacc]
      rw [haddz, ok_bind]
      exact ih st acc hfix hacc
    · rw [List.filter_cons_of_pos (by simp [hk])]
      simp only [claim_loop]
      cases hstep : claim_step now k st with
      | error e => rfl
      | ok p =>
        obtain ⟨v, st2⟩ := p
        simp only [ok_bind]
        cases hadd : checkedAddI128 acc v with
        | error e => rfl
        | ok acc2 =>
          simp only [ok_bind]
          have hacc2 : fitsI128 acc2 = true := by
            rw [checkedAddI128_ok hadd]
            exact checkedAddI128_ok_fits hadd
          exact ih st2 acc2 (claim_step_fixed_frame hstep hk hfix) hacc2

/-- Removing later duplicates from a claim batch does not change the result. -/
theorem claim_loop_dedup (now : Nat) :
    ∀ (n : Nat) (l : List Nat), l.length ≤ n → ∀ (acc : Int) (st : Store),
    fitsI128 acc = true →
    claim_loop now l acc st = claim_loop now (dedupFirst l) acc st := by
  intro n
  induction n with
  | zero =>
    intro l hl acc st _
    have hnil : l = [] := List.eq_nil_of_length_eq_zero (Nat.le_zero.mp hl)
    subst hnil
    rw [dedupFirst]
  | succ n ih =>
    intro l hl acc st hacc
    cases l with
    | nil => rw [dedupFirst]
    | cons x xs =>
      rw [dedupFirst]
      simp only [claim_loop]
      cases hstep : claim_step now x st with
      | error e => rfl
      | ok p =>
        obtain ⟨v, st2⟩ := p
        simp only [ok_bind]
        cases hadd : checkedAddI128 acc v with
        | error e => rfl
        | ok acc2 =>
          simp only [ok_bind]
          have hacc2 : fitsI128 acc2 = true := by
            rw [checkedAddI128_ok hadd]
            exact checkedAddI128_ok_fits hadd
          have hfix : StepFixed now x st2 := claim_step_establish hstep
          calc claim_loop now xs acc2 st2
              = claim_loop now (xs.filter (fun k => k != x)) acc2 st2 :=
                claim_loop_skip_fixed now x xs st2 acc2 hfix hacc2
            _ = claim_loop now (dedupFirst (xs.filter (fun k => k != x))) acc2 st2 :=
                ih _ (le_trans (List.length_filter_le _ _) (Nat.lt_succ_iff.mp hl)) acc2 st2 hacc2

/-- Claim C9: in an execute_claim batch, every occurrence of a reserve token id
after the first contributes exactly 0 to the total payout and leaves the emission
state unchanged: the whole call (total, final storage, and error behaviour) is
identical to the same batch with later duplicates removed. -/
theorem execute_claim_dedup (now : Nat) (ids : List Nat) (st : Store) :
    execute_claim now ids st = execute_claim now (dedupFirst ids) st :=
  claim_loop_dedup now ids.length ids (le_refl _) 0 st (by decide)

/-- The claim loop splits over list append. -/
theorem claim_loop_append (now : Nat) (l1 l2 : List Nat) :
    ∀ (acc : Int) (st : Store),
    claim_loop now (l1 ++ l2) acc st =
      (claim_loop now l1 acc st) >>= fun p => claim_loop now l2 p.1 p.2 := by
  induction l1 with
  | nil =>
    intro acc st
    simp [claim_loop]
  | cons x xs ih =>
    intro acc st
    simp only [List.cons_append, claim_loop]
    cases hstep : claim_step now x st with
    | error e => simp
    | ok p =>
      obtain ⟨v, st2⟩ := p
      simp only [ok_bind]
      cases hadd : checkedAddI128 acc v with
      | error e => simp
      | ok acc2 =>
        simp only [ok_bind]
        exact ih acc2 st2

/-- A successful claim loop never changes the reserve list. -/
theorem claim_loop_resList (now : Nat) :
    ∀ (l : List Nat) (acc : Int) (st st' : Store) (v : Int),
    claim_loop now l acc st = .ok (v, st') → st'.resList = st.resList := by
  intro l
  induction l with
  | nil =>
    intro acc st st' v h
    injection h with h
    rw [Prod.mk.injEq] at h
    rw [← h.2]
  | cons x xs ih =>
    intro acc st st' v h
    simp only [claim_loop] at h
    rw [except_bind_ok] at h
    obtain ⟨p, hstep, h⟩ := h
    obtain ⟨w, st2⟩ := p
    rw [except_bind_ok] at h
    obtain ⟨acc2, hadd, h⟩ := h
    rw [ih acc2 st2 st' v h, (claim_step_preserves hstep).1]

/-- Claim C7: if a reserve token id in the batch encodes a reserve index that is
not in the reserve list, the whole execute_claim call fails with the BadRequest
panic (the spec's InvalidStreamId) as soon as it is reached: the error result
models the aborted transaction, so no transfer is issued and none of the batch's
stream or user emission writes are committed.  The hypothesis on the prefix says
the entries before the invalid id process without an earlier fault. -/
theorem invalid_stream_id_aborts (now : Nat) (pre rest : List Nat) (bad : Nat) (st : Store)
    (hbad : st.resList.length ≤ bad / 2) (acc : Int) (st1 : Store)
    (hpre : claim_loop now pre 0 st = .ok (acc, st1)) :
    execute_claim now (pre ++ bad :: rest) st = .error .BadRequest := by
  rw [execute_claim, claim_loop_append, hpre, ok_bind]
  have hres : st1.resList = st.resList := claim_loop_resList now pre 0 st st1 acc hpre
  have hnone : st1.resList[bad / 2]? = none := by
    rw [hres]
    exact List.getElem?_eq_none hbad
  simp [claim_loop, claim_step, hnone]

/-- Witness for C7: a one-element batch naming reserve index 2 against a store
whose reserve list has a single entry. -/
theorem invalid_stream_id_aborts_witness :
    execute_claim 7 [5] baseStore = .error .BadRequest :=
  invalid_stream_id_aborts 7 [] [] 5 baseStore (by decide) 0 baseStore rfl

end Blend
